import Mathlib

/-!
Shallow embedding of the internal-wallet-service ledger core.

Modelling decisions:
* `Decimal` amounts (fixed-point, scale 4) are modelled as `Int` minor units
  (1 = 0.0001); all arithmetic the service performs on amounts is exact
  addition/negation/comparison, which `Int` captures faithfully.
* The SQLAlchemy session / database is an explicit `DB` value threaded through
  every call.  A raised exception aborts the unit of work with a full rollback
  (see `get_db` in `app/database.py`), so every operation returns
  `DB × Except WalletError α`, the error cases carrying the unchanged state.
* The unique index on `transactions.idempotency_key` declared in
  `app/models/ledger.py` is enforced at the flush inside
  `create_transaction_with_entries`: inserting a second transaction with the
  same non-NULL key fails (SQL UNIQUE exempts NULLs, modelled as `none`).
* Row locks serialize concurrent calls; in this sequential model a lock
  acquisition has no observable effect, but the pure return value of
  `lock_accounts_for_update` (the locked accounts, ascending by id) is
  modelled: `account_ids` is deduplicated and sorted, and each id is fetched
  by primary key (`Account.id`), mirroring
  `SELECT ... WHERE id IN ordered_ids ORDER BY id`.
-/

namespace Wallet

/-- The `AccountType` enum from `app/models/account.py`. -/
inductive AccountType where
  | USER
  | SYSTEM
deriving DecidableEq, Repr

/-- The `TransactionType` enum from `app/models/ledger.py`. -/
inductive TransactionType where
  | TOP_UP
  | BONUS
  | SPEND
deriving DecidableEq, Repr

/-- An `Account` row from `app/models/account.py`. -/
structure Account where
  id : Nat
  type : AccountType
  external_user_id : Option String
  name : String
deriving DecidableEq, Repr

/-- A `Transaction` row from `app/models/ledger.py` (`created_at` omitted: never read). -/
structure Transaction where
  id : Nat
  type : TransactionType
  idempotency_key : Option String
deriving DecidableEq, Repr

/-- A `LedgerEntry` row from `app/models/ledger.py`; `amount` in minor units. -/
structure LedgerEntry where
  id : Nat
  transaction_id : Nat
  account_id : Nat
  asset_type_id : Nat
  amount : Int
deriving DecidableEq, Repr

/-- The database state: the four relations that the wallet core touches
(asset_types is pure reference data, never read by the service, so only its
ids appear), plus autoincrement counters for the two tables the core inserts
into. -/
structure DB where
  accounts : List Account
  transactions : List Transaction
  entries : List LedgerEntry
  next_transaction_id : Nat
  next_entry_id : Nat
deriving DecidableEq, Repr

/-- Error taxonomy: `ValueError("Amount must be positive")`,
`ValueError("System Treasury account not found")`,
`InsufficientBalanceError` (carrying the balance it has and the amount it
needs, as in the message `f"Insufficient balance: have .., need .."`), and a
store-level failure (unique-constraint violation at flush). -/
inductive WalletError where
  | invalidAmount
  | treasuryNotFound
  | insufficientBalance (balance needed : Int)
  | storeFailure
deriving DecidableEq, Repr

/-- Embeds `AccountRepository.get_system_by_name`: first account with
`type == SYSTEM and name == name` (`scalar_one_or_none`). -/
def get_system_by_name (db : DB) (name : String) : Option Account :=
  db.accounts.find? (fun a => decide (a.type = AccountType.SYSTEM ∧ a.name = name))

/-- Row-by-row aggregation of
`SELECT coalesce(sum(amount), 0) WHERE account_id = .. AND asset_type_id = ..`. -/
def balance_of (entries : List LedgerEntry) (account_id asset_type_id : Nat) : Int :=
  entries.foldl
    (fun acc e =>
      if e.account_id = account_id ∧ e.asset_type_id = asset_type_id then acc + e.amount
      else acc)
    0

/-- Embeds `AccountRepository.get_balance`. -/
def get_balance (db : DB) (account_id asset_type_id : Nat) : Int :=
  balance_of db.entries account_id asset_type_id

/-- Embeds `AccountRepository.lock_accounts_for_update`:
`ordered_ids = sorted(set(account_ids))`, then
`SELECT .. WHERE id IN ordered_ids ORDER BY id FOR UPDATE`; since `Account.id`
is the primary key, the result fetches at most one row per id in ascending
order. -/
def lock_accounts_for_update (db : DB) (account_ids : List Nat) : List Account :=
  if account_ids.isEmpty then []
  else
    let ordered_ids := List.insertionSort (· ≤ ·) account_ids.dedup
    ordered_ids.filterMap (fun i => db.accounts.find? (fun a => decide (a.id = i)))

/-- Embeds `LedgerRepository.get_transaction_by_idempotency_key` (`scalar_one_or_none`;
the unique index keeps at most one match in any reachable state). -/
def get_transaction_by_idempotency_key (db : DB) (idempotency_key : String) :
    Option Transaction :=
  db.transactions.find? (fun t => decide (t.idempotency_key = some idempotency_key))

/-- Whether some stored transaction already carries this non-NULL key
(the condition under which the UNIQUE index on `idempotency_key` rejects an
insert). -/
def has_idempotency_key (db : DB) (k : String) : Bool :=
  db.transactions.any (fun t => decide (t.idempotency_key = some k))

/-- UNIQUE-index check for an inserted key: NULL (`none`) never conflicts. -/
def key_conflict (db : DB) (key : Option String) : Bool :=
  match key with
  | none => false
  | some k => has_idempotency_key db k

/-- The `LedgerEntry` rows built from `(account_id, asset_type_id, amount)`
triples, with autoincremented ids. -/
def mk_entries (next_entry_id transaction_id : Nat)
    (entries : List (Nat × Nat × Int)) : List LedgerEntry :=
  entries.enum.map (fun p =>
    { id := next_entry_id + p.1
      transaction_id := transaction_id
      account_id := p.2.1
      asset_type_id := p.2.2.1
      amount := p.2.2.2 })

/-- Embeds `LedgerRepository.create_transaction_with_entries`: insert one
`Transaction` header plus its entries as one atomic unit; the flush fails
(and nothing is persisted) when the idempotency-key UNIQUE index is violated. -/
def create_transaction_with_entries (db : DB) (transaction_type : TransactionType)
    (idempotency_key : Option String) (entries : List (Nat × Nat × Int)) :
    DB × Except WalletError Transaction :=
  if key_conflict db idempotency_key then
    (db, Except.error WalletError.storeFailure)
  else
    let tx : Transaction :=
      { id := db.next_transaction_id
        type := transaction_type
        idempotency_key := idempotency_key }
    let new_entries := mk_entries db.next_entry_id tx.id entries
    ({ db with
        transactions := db.transactions ++ [tx]
        entries := db.entries ++ new_entries
        next_transaction_id := db.next_transaction_id + 1
        next_entry_id := db.next_entry_id + entries.length },
      Except.ok tx)

/-- Embeds `WalletService.SYSTEM_TREASURY_NAME`. -/
def SYSTEM_TREASURY_NAME : String := "Treasury"

/-- Python truthiness of `if idempotency_key:` — `None` and `""` are falsy. -/
def truthy_key (idempotency_key : Option String) : Bool :=
  match idempotency_key with
  | none => false
  | some k => decide (k ≠ "")

/-- The idempotency short-circuit shared by all three operations:
`if idempotency_key: existing = get_transaction_by_idempotency_key(...)`. -/
def lookup_existing (db : DB) (idempotency_key : Option String) : Option Transaction :=
  match idempotency_key with
  | some k =>
    if k ≠ "" then get_transaction_by_idempotency_key db k else none
  | none => none

/-- Embeds `WalletService._lock_and_ensure_balance`: lock both accounts (no
observable effect in the sequential model), recompute the user balance, fail
if it is below `amount`. -/
def lock_and_ensure_balance (db : DB) (user_account_id system_account_id asset_type_id : Nat)
    (amount : Int) : Except WalletError Unit :=
  let _locked := lock_accounts_for_update db [user_account_id, system_account_id]
  let balance := get_balance db user_account_id asset_type_id
  if balance < amount then
    Except.error (WalletError.insufficientBalance balance amount)
  else
    Except.ok ()

/-- Embeds `WalletService.top_up`. -/
def top_up (db : DB) (user_account_id asset_type_id : Nat) (amount : Int)
    (idempotency_key : Option String) : DB × Except WalletError (Nat × Int) :=
  if amount ≤ 0 then (db, Except.error WalletError.invalidAmount)
  else
    match lookup_existing db idempotency_key with
    | some existing =>
      (db, Except.ok (existing.id, get_balance db user_account_id asset_type_id))
    | none =>
      match get_system_by_name db SYSTEM_TREASURY_NAME with
      | none => (db, Except.error WalletError.treasuryNotFound)
      | some system =>
        let _locked := lock_accounts_for_update db [system.id, user_account_id]
        let entries := [(system.id, asset_type_id, -amount),
                        (user_account_id, asset_type_id, amount)]
        match create_transaction_with_entries db TransactionType.TOP_UP idempotency_key entries with
        | (db2, Except.error e) => (db2, Except.error e)
        | (db2, Except.ok tx) =>
          (db2, Except.ok (tx.id, get_balance db2 user_account_id asset_type_id))

/-- Embeds `WalletService.bonus` (body identical to `top_up` in the source, apart
from the transaction type tag). -/
def bonus (db : DB) (user_account_id asset_type_id : Nat) (amount : Int)
    (idempotency_key : Option String) : DB × Except WalletError (Nat × Int) :=
  if amount ≤ 0 then (db, Except.error WalletError.invalidAmount)
  else
    match lookup_existing db idempotency_key with
    | some existing =>
      (db, Except.ok (existing.id, get_balance db user_account_id asset_type_id))
    | none =>
      match get_system_by_name db SYSTEM_TREASURY_NAME with
      | none => (db, Except.error WalletError.treasuryNotFound)
      | some system =>
        let _locked := lock_accounts_for_update db [system.id, user_account_id]
        let entries := [(system.id, asset_type_id, -amount),
                        (user_account_id, asset_type_id, amount)]
        match create_transaction_with_entries db TransactionType.BONUS idempotency_key entries with
        | (db2, Except.error e) => (db2, Except.error e)
        | (db2, Except.ok tx) =>
          (db2, Except.ok (tx.id, get_balance db2 user_account_id asset_type_id))

/-- Embeds `WalletService.spend`. -/
def spend (db : DB) (user_account_id asset_type_id : Nat) (amount : Int)
    (idempotency_key : Option String) : DB × Except WalletError (Nat × Int) :=
  if amount ≤ 0 then (db, Except.error WalletError.invalidAmount)
  else
    match lookup_existing db idempotency_key with
    | some existing =>
      (db, Except.ok (existing.id, get_balance db user_account_id asset_type_id))
    | none =>
      match get_system_by_name db SYSTEM_TREASURY_NAME with
      | none => (db, Except.error WalletError.treasuryNotFound)
      | some system =>
        match lock_and_ensure_balance db user_account_id system.id asset_type_id amount with
        | Except.error e => (db, Except.error e)
        | Except.ok _ =>
          let entries := [(user_account_id, asset_type_id, -amount),
                          (system.id, asset_type_id, amount)]
          match create_transaction_with_entries db TransactionType.SPEND idempotency_key entries with
          | (db2, Except.error e) => (db2, Except.error e)
          | (db2, Except.ok tx) =>
            (db2, Except.ok (tx.id, get_balance db2 user_account_id asset_type_id))

/-- Selector over the three public money-movement operations. -/
inductive Op where
  | topUpOp
  | bonusOp
  | spendOp
deriving DecidableEq, Repr

/-- Dispatch to `top_up` / `bonus` / `spend` — used to state the properties
shared by all three operations. -/
def run_operation (op : Op) (db : DB) (user_account_id asset_type_id : Nat) (amount : Int)
    (idempotency_key : Option String) : DB × Except WalletError (Nat × Int) :=
  match op with
  | Op.topUpOp => top_up db user_account_id asset_type_id amount idempotency_key
  | Op.bonusOp => bonus db user_account_id asset_type_id amount idempotency_key
  | Op.spendOp => spend db user_account_id asset_type_id amount idempotency_key

/-- The transaction type each operation tags its header with. -/
def op_transaction_type : Op → TransactionType
  | Op.topUpOp => TransactionType.TOP_UP
  | Op.bonusOp => TransactionType.BONUS
  | Op.spendOp => TransactionType.SPEND

/-- The `(account_id, asset_type_id, amount)` pair each operation writes:
top-up/bonus debit the treasury and credit the user, spend debits the user
and credits the treasury. -/
def op_entry_pair (op : Op) (system_id user_account_id asset_type_id : Nat) (amount : Int) :
    List (Nat × Nat × Int) :=
  match op with
  | Op.spendOp => [(user_account_id, asset_type_id, -amount),
                   (system_id, asset_type_id, amount)]
  | _ => [(system_id, asset_type_id, -amount),
          (user_account_id, asset_type_id, amount)]

/-- Concrete fixture: the seeded Treasury account. -/
def treasuryAccount : Account :=
  { id := 1, type := AccountType.SYSTEM, external_user_id := none, name := "Treasury" }

/-- Concrete fixture: a seeded user account. -/
def aliceAccount : Account :=
  { id := 2, type := AccountType.USER, external_user_id := some "user_alice", name := "Alice" }

/-- Concrete fixture: a freshly provisioned database with an empty ledger. -/
def db0 : DB :=
  { accounts := [treasuryAccount, aliceAccount]
    transactions := []
    entries := []
    next_transaction_id := 1
    next_entry_id := 1 }

/-- The database state written by a successful, non-replayed operation. -/
def write_state (op : Op) (db : DB) (system_id user_account_id asset_type_id : Nat)
    (amount : Int) (key : Option String) : DB :=
  { db with
      transactions := db.transactions ++
        [{ id := db.next_transaction_id
           type := op_transaction_type op
           idempotency_key := key }]
      entries := db.entries ++
        mk_entries db.next_entry_id db.next_transaction_id
          (op_entry_pair op system_id user_account_id asset_type_id amount)
      next_transaction_id := db.next_transaction_id + 1
      next_entry_id := db.next_entry_id + 2 }

/-- Fixture: the state after a plain top-up of 100 of asset 1 to Alice. -/
def dbA : DB := (top_up db0 2 1 100 none).1

/-- Fixture: the state after an idempotent top-up of 100 of asset 1 to Alice
under key "k1"; its only transaction has id 1. -/
def dbK : DB := (top_up db0 2 1 100 (some "k1")).1

/-- Fixture: the state after a top-up that supplied the empty string as its
idempotency key (the key is stored verbatim on the transaction row). -/
def dbEmptyKey : DB := (top_up db0 2 1 100 (some "")).1

deriving instance DecidableEq for Except

/-! ### Infrastructure lemmas -/

/-- Folding the balance aggregation from an arbitrary accumulator shifts by it. -/
theorem balance_foldl_shift (a t : Nat) (es : List LedgerEntry) (c : Int) :
    es.foldl
      (fun acc e =>
        if e.account_id = a ∧ e.asset_type_id = t then acc + e.amount else acc) c
      = c + balance_of es a t := by
  induction es generalizing c with
  | nil => simp [balance_of]
  | cons e es ih =>
    simp only [balance_of, List.foldl_cons] at *
    by_cases h : e.account_id = a ∧ e.asset_type_id = t
    · rw [if_pos h, if_pos h, ih, ih (0 + e.amount)]
      ring
    · rw [if_neg h, if_neg h, ih]

/-- The aggregated balance distributes over list append. -/
theorem balance_of_append (es fs : List LedgerEntry) (a t : Nat) :
    balance_of (es ++ fs) a t = balance_of es a t + balance_of fs a t := by
  simp only [balance_of, List.foldl_append]
  rw [balance_foldl_shift]
  rfl

/-- The aggregated balance of a two-entry list. -/
theorem balance_of_pair (e1 e2 : LedgerEntry) (a t : Nat) :
    balance_of [e1, e2] a t =
      (if e1.account_id = a ∧ e1.asset_type_id = t then e1.amount else 0) +
      (if e2.account_id = a ∧ e2.asset_type_id = t then e2.amount else 0) := by
  simp only [balance_of, List.foldl_cons, List.foldl_nil]
  by_cases h1 : e1.account_id = a ∧ e1.asset_type_id = t <;>
    by_cases h2 : e2.account_id = a ∧ e2.asset_type_id = t <;>
      simp [h1, h2]

/-- Evaluating `mk_entries` on a two-triple list, with the autoincremented ids spelt out. -/
theorem mk_entries_pair (n tid : Nat) (p q : Nat × Nat × Int) :
    mk_entries n tid [p, q] =
      [{ id := n, transaction_id := tid, account_id := p.1,
         asset_type_id := p.2.1, amount := p.2.2 },
       { id := n + 1, transaction_id := tid, account_id := q.1,
         asset_type_id := q.2.1, amount := q.2.2 }] := by
  simp [mk_entries, List.enum]

/-- One-step characterization of each of the three public operations:
amount validation, idempotent replay, treasury resolution, the balance check
(spend only), the idempotency-key uniqueness check at flush, and the
two-entry write. -/
theorem run_operation_eq (op : Op) (db : DB) (u a : Nat) (amt : Int) (key : Option String) :
    run_operation op db u a amt key =
      if amt ≤ 0 then (db, Except.error WalletError.invalidAmount)
      else
        match lookup_existing db key with
        | some existing => (db, Except.ok (existing.id, get_balance db u a))
        | none =>
          match get_system_by_name db SYSTEM_TREASURY_NAME with
          | none => (db, Except.error WalletError.treasuryNotFound)
          | some system =>
            if op = Op.spendOp ∧ get_balance db u a < amt then
              (db, Except.error (WalletError.insufficientBalance (get_balance db u a) amt))
            else if key_conflict db key then
              (db, Except.error WalletError.storeFailure)
            else
              (write_state op db system.id u a amt key,
               Except.ok (db.next_transaction_id,
                 get_balance (write_state op db system.id u a amt key) u a)) := by
  cases op with
  | topUpOp =>
    simp only [run_operation, top_up]
    by_cases h1 : amt ≤ 0
    · simp [h1]
    · simp only [if_neg h1]
      rcases hl : lookup_existing db key with _ | existing <;> simp only [hl]
      rcases hs : get_system_by_name db SYSTEM_TREASURY_NAME with _ | sys <;> simp only []
      have hns : ¬ (Op.topUpOp = Op.spendOp ∧ get_balance db u a < amt) := by simp
      rw [if_neg hns]
      simp only [create_transaction_with_entries]
      by_cases hk : key_conflict db key
      · simp [hk]
      · simp [hk, write_state, op_transaction_type, op_entry_pair]
  | bonusOp =>
    simp only [run_operation, bonus]
    by_cases h1 : amt ≤ 0
    · simp [h1]
    · simp only [if_neg h1]
      rcases hl : lookup_existing db key with _ | existing <;> simp only [hl]
      rcases hs : get_system_by_name db SYSTEM_TREASURY_NAME with _ | sys <;> simp only []
      have hns : ¬ (Op.bonusOp = Op.spendOp ∧ get_balance db u a < amt) := by simp
      rw [if_neg hns]
      simp only [create_transaction_with_entries]
      by_cases hk : key_conflict db key
      · simp [hk]
      · simp [hk, write_state, op_transaction_type, op_entry_pair]
  | spendOp =>
    simp only [run_operation, spend]
    by_cases h1 : amt ≤ 0
    · simp [h1]
    · simp only [if_neg h1]
      rcases hl : lookup_existing db key with _ | existing <;> simp only [hl]
      rcases hs : get_system_by_name db SYSTEM_TREASURY_NAME with _ | sys <;> simp only []
      simp only [lock_and_ensure_balance]
      by_cases hb : get_balance db u a < amt
      · simp [hb]
      · simp only [true_and]
        rw [if_neg hb, if_neg hb]
        simp only [create_transaction_with_entries]
        by_cases hk : key_conflict db key
        · simp [hk]
        · simp [hk, write_state, op_transaction_type, op_entry_pair]

/-- Note `get_balance` only reads the entries relation of a write. -/
theorem get_balance_write_state (op : Op) (db : DB) (sid u a x t : Nat) (amt : Int)
    (key : Option String) :
    get_balance (write_state op db sid u a amt key) x t =
      get_balance db x t +
        balance_of
          (mk_entries db.next_entry_id db.next_transaction_id
            (op_entry_pair op sid u a amt)) x t := by
  simp only [get_balance, write_state, balance_of_append]

/-- The entry pair of every operation is `[-amount, +amount]` on the given
asset type, over the two accounts in some order. -/
theorem op_entry_pair_shape (op : Op) (sid u a : Nat) (amt : Int) :
    ∃ A B : Nat, op_entry_pair op sid u a amt = [(A, a, -amt), (B, a, amt)] := by
  cases op <;> exact ⟨_, _, rfl⟩

/-- A key on which no stored transaction conflicts is also not found by the
idempotency short-circuit. -/
theorem lookup_existing_of_no_conflict (db : DB) (key : Option String)
    (h : key_conflict db key = false) : lookup_existing db key = none := by
  cases key with
  | none => rfl
  | some k =>
    simp only [lookup_existing]
    by_cases hk : k ≠ ""
    · rw [if_pos hk]
      simp only [key_conflict, has_idempotency_key, List.any_eq_false,
        decide_eq_true_eq] at h
      simp only [get_transaction_by_idempotency_key, List.find?_eq_none]
      intro t ht
      simpa using h t ht
    · rw [if_neg hk]

/-! ### Claims -/

/-- C6: for all three operations and every amount ≤ 0, the call fails with
`InvalidAmount` before any lock or write: no row is created and the state is
returned unchanged, regardless of the supplied idempotency key. -/
theorem claim6_invalid_amount_rejected (op : Op) (db : DB) (u a : Nat) (amt : Int)
    (key : Option String) (h : amt ≤ 0) :
    run_operation op db u a amt key = (db, Except.error WalletError.invalidAmount) := by
  rw [run_operation_eq, if_pos h]

/-- C6 witness: a zero-amount top-up is rejected unchanged even though a
transaction under the supplied key "k1" already exists. -/
theorem claim6_witness :
    run_operation Op.topUpOp dbK 2 1 0 (some "k1") =
      (dbK, Except.error WalletError.invalidAmount) :=
  claim6_invalid_amount_rejected Op.topUpOp dbK 2 1 0 (some "k1") (by decide)

/-- The aggregated balance of a cons cell. -/
theorem balance_of_cons (e : LedgerEntry) (es : List LedgerEntry) (a t : Nat) :
    balance_of (e :: es) a t =
      (if e.account_id = a ∧ e.asset_type_id = t then e.amount else 0) + balance_of es a t := by
  simp only [balance_of, List.foldl_cons]
  rw [balance_foldl_shift]
  by_cases h : e.account_id = a ∧ e.asset_type_id = t <;> simp [h, balance_of]

/-- The aggregated balance equals the sum of the amounts of the matching rows. -/
theorem balance_of_filter_sum (es : List LedgerEntry) (a t : Nat) :
    balance_of es a t =
      ((es.filter (fun e => decide (e.account_id = a ∧ e.asset_type_id = t))).map
        (fun e => e.amount)).sum := by
  induction es with
  | nil => rfl
  | cons e es ih =>
    rw [balance_of_cons, List.filter_cons]
    by_cases h : e.account_id = a ∧ e.asset_type_id = t
    · simp [h, ih]
    · simp [h, ih]

/-- C5: `get_balance` returns the sum of the signed amounts of all
`LedgerEntry` rows matching the `(account_id, asset_type_id)` pair, and zero
when no such rows exist. -/
theorem claim5_get_balance_is_sum (db : DB) (a t : Nat) :
    get_balance db a t =
      ((db.entries.filter (fun e => decide (e.account_id = a ∧ e.asset_type_id = t))).map
        (fun e => e.amount)).sum ∧
    (db.entries.filter (fun e => decide (e.account_id = a ∧ e.asset_type_id = t)) = [] →
      get_balance db a t = 0) := by
  refine ⟨balance_of_filter_sum db.entries a t, fun hnone => ?_⟩
  rw [get_balance, balance_of_filter_sum, hnone]
  rfl

/-- C5 witness: an account/asset pair with no ledger rows has balance zero. -/
theorem claim5_witness : get_balance db0 5 7 = 0 :=
  (claim5_get_balance_is_sum db0 5 7).2 (by decide)

/-- C1: a successful `top_up`, `bonus` or `spend` either replays (writing
nothing: the state is returned unchanged) or appends exactly two ledger
entries, both belonging to the created transaction and to the given asset
type, with signed amounts `-amount` and `+amount`, whose per-asset-type sums
are all zero. -/
theorem claim1_entries_balanced (op : Op) (db : DB) (u a : Nat) (amt : Int)
    (key : Option String) (db2 : DB) (txid : Nat) (bal : Int)
    (h : run_operation op db u a amt key = (db2, Except.ok (txid, bal))) :
    db2 = db ∨
      ∃ e1 e2 : LedgerEntry,
        db2.entries = db.entries ++ [e1, e2] ∧
        e1.transaction_id = txid ∧ e2.transaction_id = txid ∧
        e1.asset_type_id = a ∧ e2.asset_type_id = a ∧
        e1.amount = -amt ∧ e2.amount = amt ∧
        ∀ t : Nat,
          ((([e1, e2].filter (fun e => decide (e.asset_type_id = t))).map
            (fun e => e.amount)).sum = 0) := by
  rw [run_operation_eq] at h
  split at h
  · simp at h
  · split at h
    · rename_i existing heq
      injection h with hdb hres
      exact Or.inl hdb.symm
    · split at h
      · simp at h
      · rename_i sys hsys
        split at h
        · simp at h
        · split at h
          · simp at h
          · injection h with hdb hres
            injection hres with hres'
            injection hres' with hid hbal
            obtain ⟨A, B, hAB⟩ := op_entry_pair_shape op sys.id u a amt
            refine Or.inr
              ⟨{ id := db.next_entry_id, transaction_id := txid, account_id := A,
                 asset_type_id := a, amount := -amt },
               { id := db.next_entry_id + 1, transaction_id := txid, account_id := B,
                 asset_type_id := a, amount := amt }, ?_, rfl, rfl, rfl, rfl, rfl, rfl, ?_⟩
            · rw [← hdb]
              simp [write_state, hAB, mk_entries_pair, hid]
            · intro t
              by_cases ht : a = t <;> simp [ht, List.filter_cons]

/-- C1 witness: the concrete top-up of 100 to Alice on the fresh database
satisfies the balanced-entries characterization. -/
theorem claim1_witness :
    dbA = db0 ∨
      ∃ e1 e2 : LedgerEntry,
        dbA.entries = db0.entries ++ [e1, e2] ∧
        e1.transaction_id = 1 ∧ e2.transaction_id = 1 ∧
        e1.asset_type_id = 1 ∧ e2.asset_type_id = 1 ∧
        e1.amount = -100 ∧ e2.amount = 100 ∧
        ∀ t : Nat,
          ((([e1, e2].filter (fun e => decide (e.asset_type_id = t))).map
            (fun e => e.amount)).sum = 0) :=
  claim1_entries_balanced Op.topUpOp db0 2 1 100 none dbA 1 100 (by decide)

/-- C2: with a positive amount, a fresh idempotency key and the treasury
resolving to an account other than the debited user, `spend` fails with
`InsufficientBalance` iff the user's balance for the asset type is strictly
below the amount; on that failure the error carries the (balance, amount)
shortfall and the state is returned unchanged; and a spend of exactly the
current balance succeeds and leaves the balance at zero. -/
theorem claim2_spend_insufficient_iff (db : DB) (u a : Nat) (amt : Int)
    (key : Option String) (sys : Account)
    (hamt : 0 < amt)
    (hfresh : key_conflict db key = false)
    (hsys : get_system_by_name db SYSTEM_TREASURY_NAME = some sys)
    (hdistinct : sys.id ≠ u) :
    ((∃ (db2 : DB) (b n : Int),
        spend db u a amt key = (db2, Except.error (WalletError.insufficientBalance b n)))
      ↔ get_balance db u a < amt) ∧
    (get_balance db u a < amt →
      spend db u a amt key =
        (db, Except.error (WalletError.insufficientBalance (get_balance db u a) amt))) ∧
    (get_balance db u a = amt →
      ∃ (db2 : DB) (txid : Nat),
        spend db u a amt key = (db2, Except.ok (txid, 0)) ∧ get_balance db2 u a = 0) := by
  have hrun : spend db u a amt key = run_operation Op.spendOp db u a amt key := rfl
  have hlook := lookup_existing_of_no_conflict db key hfresh
  rw [hrun, run_operation_eq, if_neg (not_le.mpr hamt)]
  simp only [hlook, hsys, eq_self_iff_true, true_and]
  by_cases hb : get_balance db u a < amt
  · rw [if_pos hb]
    refine ⟨⟨fun _ => hb, fun _ => ⟨db, get_balance db u a, amt, rfl⟩⟩, fun _ => rfl, ?_⟩
    intro hbal
    omega
  · rw [if_neg hb]
    simp only [hfresh, Bool.false_eq_true, if_false]
    have hb0 : get_balance (write_state Op.spendOp db sys.id u a amt key) u a =
        get_balance db u a - amt := by
      rw [get_balance_write_state]
      simp only [op_entry_pair]
      rw [mk_entries_pair, balance_of_pair]
      simp [hdistinct]
      ring
    refine ⟨⟨?_, fun hlt => absurd hlt hb⟩, fun hlt => absurd hlt hb, ?_⟩
    · rintro ⟨db2, b, n, he⟩
      injection he with hd hr
      cases hr
    · intro hbal
      have hz : get_balance (write_state Op.spendOp db sys.id u a amt key) u a = 0 := by
        rw [hb0, hbal]
        ring
      exact ⟨write_state Op.spendOp db sys.id u a amt key, db.next_transaction_id,
        by rw [hz], hz⟩

/-- C2 witness: on the state where Alice holds exactly 100 of asset 1, a
spend of exactly 100 succeeds and leaves balance 0. -/
theorem claim2_witness :
    ∃ (db2 : DB) (txid : Nat),
      spend dbA 2 1 100 none = (db2, Except.ok (txid, 0)) ∧ get_balance db2 2 1 = 0 :=
  (claim2_spend_insufficient_iff dbA 2 1 100 none treasuryAccount (by decide) (by decide)
    (by decide) (by decide)).2.2 (by decide)

/-- C7: a successful, non-replayed operation returns the new balance as
recomputed from the ledger after the write: the balance before the call plus
the amount for `top_up`/`bonus`, minus the amount for `spend` (the treasury
resolving to an account other than the affected user). -/
theorem claim7_returned_balance (op : Op) (db : DB) (u a : Nat) (amt : Int)
    (key : Option String) (sys : Account) (db2 : DB) (txid : Nat) (bal : Int)
    (hnoreplay : lookup_existing db key = none)
    (hsys : get_system_by_name db SYSTEM_TREASURY_NAME = some sys)
    (hdistinct : sys.id ≠ u)
    (h : run_operation op db u a amt key = (db2, Except.ok (txid, bal))) :
    bal = get_balance db2 u a ∧
    ((op = Op.topUpOp ∨ op = Op.bonusOp) →
      get_balance db2 u a = get_balance db u a + amt) ∧
    (op = Op.spendOp → get_balance db2 u a = get_balance db u a - amt) := by
  rw [run_operation_eq] at h
  split at h
  · simp at h
  · simp only [hnoreplay, hsys] at h
    split at h
    · simp at h
    · split at h
      · simp at h
      · injection h with hdb hres
        injection hres with hres'
        injection hres' with hid hbal
        subst hdb
        refine ⟨hbal.symm, ?_, ?_⟩
        · rintro (rfl | rfl) <;>
            · rw [get_balance_write_state]
              simp only [op_entry_pair]
              rw [mk_entries_pair, balance_of_pair]
              simp [hdistinct]
        · rintro rfl
          rw [get_balance_write_state]
          simp only [op_entry_pair]
          rw [mk_entries_pair, balance_of_pair]
          simp [hdistinct]
          ring

/-- C7 witness: the concrete top-up of 100 to Alice on the fresh database
returns the recomputed balance 100 = 0 + 100. -/
theorem claim7_witness :
    (100 : Int) = get_balance dbA 2 1 ∧
    ((Op.topUpOp = Op.topUpOp ∨ Op.topUpOp = Op.bonusOp) →
      get_balance dbA 2 1 = get_balance db0 2 1 + 100) ∧
    (Op.topUpOp = Op.spendOp → get_balance dbA 2 1 = get_balance db0 2 1 - 100) :=
  claim7_returned_balance Op.topUpOp db0 2 1 100 none treasuryAccount dbA 1 100
    (by decide) (by decide) (by decide) (by decide)

/-- C4: starting from a state with pairwise-distinct account ids in which a
USER account's balance for some asset type is non-negative, every successful
operation leaves that balance non-negative. -/
theorem claim4_user_balance_nonneg (op : Op) (db : DB) (u a : Nat) (amt : Int)
    (key : Option String) (x : Account) (t : Nat) (db2 : DB) (r : Nat × Int)
    (hnodup : (db.accounts.map (fun acc => acc.id)).Nodup)
    (hx : x ∈ db.accounts) (hxt : x.type = AccountType.USER)
    (hnn : 0 ≤ get_balance db x.id t)
    (h : run_operation op db u a amt key = (db2, Except.ok r)) :
    0 ≤ get_balance db2 x.id t := by
  rw [run_operation_eq] at h
  split at h
  · simp at h
  · rename_i hamt
    split at h
    · injection h with hdb _
      rw [← hdb]
      exact hnn
    · split at h
      · simp at h
      · rename_i sys hsys
        split at h
        · simp at h
        · rename_i hnotspend
          split at h
          · simp at h
          · injection h with hdb hres
            subst hdb
            have hsysmem : sys ∈ db.accounts := List.mem_of_find?_eq_some hsys
            have hsystype : sys.type = AccountType.SYSTEM := by
              have := List.find?_some hsys
              simp only [decide_eq_true_eq] at this
              exact this.1
            have hne : sys.id ≠ x.id := by
              intro heq
              have hsx : sys = x := List.inj_on_of_nodup_map hnodup hsysmem hx heq
              rw [hsx, hxt] at hsystype
              cases hsystype
            rw [get_balance_write_state]
            cases op with
            | topUpOp =>
              simp only [op_entry_pair]
              rw [mk_entries_pair, balance_of_pair]
              simp only [hne, false_and, if_false]
              by_cases hu : u = x.id ∧ a = t <;> simp [hu] <;> omega
            | bonusOp =>
              simp only [op_entry_pair]
              rw [mk_entries_pair, balance_of_pair]
              simp only [hne, false_and, if_false]
              by_cases hu : u = x.id ∧ a = t <;> simp [hu] <;> omega
            | spendOp =>
              simp only [op_entry_pair]
              rw [mk_entries_pair, balance_of_pair]
              simp only [hne, false_and, if_false]
              have hbound : ¬ get_balance db u a < amt := by
                intro hlt
                exact hnotspend ⟨rfl, hlt⟩
              by_cases hu : u = x.id ∧ a = t
              · obtain ⟨hu1, hu2⟩ := hu
                subst hu1
                subst hu2
                simp only [and_self, if_true, if_pos]
                simp
                omega
              · simp [hu]
                omega

/-- C4 witness: after Alice (a USER account, balance 100) spends 100, her
balance is still non-negative. -/
theorem claim4_witness : 0 ≤ get_balance (spend dbA 2 1 100 none).1 2 1 :=
  claim4_user_balance_nonneg Op.spendOp dbA 2 1 100 none aliceAccount 1
    (spend dbA 2 1 100 none).1 (2, 0) (by decide) (by decide) (by decide) (by decide)
    (by decide)

/-- C3: for a positive amount and a non-empty idempotency key: (i) when a
transaction already exists under the key (at most one can, by the unique
index), the call writes nothing, returns the existing transaction's id and
the current ledger-recomputed balance; (ii) hence calling the same operation
twice with the same fresh key creates exactly one transaction, returns the
same transaction id both times, and changes the balance exactly once. -/
theorem claim3_idempotent_replay (op : Op) (db : DB) (u a : Nat) (amt : Int) (k : String)
    (hamt : 0 < amt) (hk : k ≠ "") :
    (∀ tx : Transaction,
      db.transactions.countP (fun t => decide (t.idempotency_key = some k)) ≤ 1 →
      get_transaction_by_idempotency_key db k = some tx →
      run_operation op db u a amt (some k) = (db, Except.ok (tx.id, get_balance db u a))) ∧
    (∀ (db2 : DB) (txid : Nat) (bal : Int),
      get_transaction_by_idempotency_key db k = none →
      run_operation op db u a amt (some k) = (db2, Except.ok (txid, bal)) →
      db2.transactions.length = db.transactions.length + 1 ∧
      bal = get_balance db2 u a ∧
      run_operation op db2 u a amt (some k) = (db2, Except.ok (txid, get_balance db2 u a))) := by
  constructor
  · intro tx _ hfound
    rw [run_operation_eq, if_neg (not_le.mpr hamt)]
    have hlook : lookup_existing db (some k) = some tx := by
      simp [lookup_existing, hk, hfound]
    simp [hlook]
  · intro db2 txid bal hnone h
    have hlook : lookup_existing db (some k) = none := by
      simp [lookup_existing, hk, hnone]
    rw [run_operation_eq, if_neg (not_le.mpr hamt)] at h
    simp only [hlook] at h
    split at h
    · simp at h
    · rename_i sys hsys
      split at h
      · simp at h
      · split at h
        · simp at h
        · injection h with hdb hres
          injection hres with hres'
          injection hres' with hid hbal
          subst hdb
          refine ⟨by simp [write_state], hbal.symm, ?_⟩
          have hnewkey :
              lookup_existing (write_state op db sys.id u a amt (some k)) (some k) =
                some { id := db.next_transaction_id, type := op_transaction_type op,
                       idempotency_key := some k } := by
            simp only [lookup_existing, if_pos hk]
            simp only [get_transaction_by_idempotency_key, write_state, List.find?_append]
            rw [show List.find? (fun t => decide (t.idempotency_key = some k))
              db.transactions = none from hnone]
            simp
          rw [run_operation_eq, if_neg (not_le.mpr hamt)]
          simp only [hnewkey]
          simp [hid]

/-- C3 witness: replaying the top-up under key "k1" on the state it produced
returns the same transaction id 1, writes nothing, and returns the current
balance. -/
theorem claim3_witness :
    run_operation Op.topUpOp dbK 2 1 100 (some "k1") =
      (dbK, Except.ok (1, get_balance dbK 2 1)) :=
  (claim3_idempotent_replay Op.topUpOp dbK 2 1 100 "k1" (by decide) (by decide)).1
    { id := 1, type := TransactionType.TOP_UP, idempotency_key := some "k1" }
    (by decide) (by decide)

/-- The ids of the accounts fetched per sorted id list are exactly the ids
whose primary-key lookup succeeds, in the same order. -/
theorem filterMap_find_ids (db : DB) (l : List Nat) :
    (l.filterMap (fun i => db.accounts.find? (fun acc => decide (acc.id = i)))).map
        (fun acc => acc.id)
      = l.filter (fun i => (db.accounts.find? (fun acc => decide (acc.id = i))).isSome) := by
  induction l with
  | nil => rfl
  | cons i l ih =>
    rw [List.filterMap_cons, List.filter_cons]
    cases hf : db.accounts.find? (fun acc => decide (acc.id = i)) with
    | none => simpa [hf] using ih
    | some acc =>
      have hacc : acc.id = i := by simpa using List.find?_some hf
      simp [hf, hacc, ih]

/-- C8: `lock_accounts_for_update` deduplicates the requested ids and locks
and returns the matching accounts in ascending id order: the result is
strictly sorted by id with no duplicates, contains exactly the stored
accounts whose id was requested (exactness of the reverse inclusion under
the primary-key uniqueness of account ids), and an empty input yields an
empty list. -/
theorem claim8_lock_accounts_sorted (db : DB) (ids : List Nat) :
    lock_accounts_for_update db [] = [] ∧
    List.Sorted (· < ·) ((lock_accounts_for_update db ids).map (fun acc => acc.id)) ∧
    ((lock_accounts_for_update db ids).map (fun acc => acc.id)).Nodup ∧
    (∀ acc ∈ lock_accounts_for_update db ids, acc ∈ db.accounts ∧ acc.id ∈ ids) ∧
    ((db.accounts.map (fun acc => acc.id)).Nodup →
      ∀ acc ∈ db.accounts, acc.id ∈ ids → acc ∈ lock_accounts_for_update db ids) := by
  by_cases hids : ids.isEmpty
  · have : ids = [] := List.isEmpty_iff.1 hids
    subst this
    refine ⟨rfl, ?_, ?_, ?_, ?_⟩ <;> simp [lock_accounts_for_update]
  · have hsortle : (List.insertionSort (· ≤ ·) ids.dedup).Sorted (· ≤ ·) :=
      List.sorted_insertionSort (· ≤ ·) ids.dedup
    have hnodupL : (List.insertionSort (· ≤ ·) ids.dedup).Nodup :=
      (List.perm_insertionSort (· ≤ ·) ids.dedup).nodup_iff.2 (List.nodup_dedup ids)
    have hsortlt : (List.insertionSort (· ≤ ·) ids.dedup).Sorted (· < ·) :=
      hsortle.lt_of_le hnodupL
    refine ⟨rfl, ?_, ?_, ?_, ?_⟩
    · rw [lock_accounts_for_update, if_neg hids, filterMap_find_ids]
      exact hsortlt.filter _
    · rw [lock_accounts_for_update, if_neg hids, filterMap_find_ids]
      exact (hsortlt.filter _).nodup
    · intro acc hacc
      rw [lock_accounts_for_update, if_neg hids] at hacc
      obtain ⟨i, hiL, hfind⟩ := List.mem_filterMap.1 hacc
      refine ⟨List.mem_of_find?_eq_some hfind, ?_⟩
      have hid : acc.id = i := by simpa using List.find?_some hfind
      rw [hid]
      exact List.mem_dedup.1 ((List.mem_insertionSort (· ≤ ·)).1 hiL)
    · intro hnodup acc haccmem hidmem
      rw [lock_accounts_for_update, if_neg hids]
      refine List.mem_filterMap.2 ⟨acc.id, ?_, ?_⟩
      · exact (List.mem_insertionSort (· ≤ ·)).2 (List.mem_dedup.2 hidmem)
      · have hsome : (db.accounts.find? (fun b => decide (b.id = acc.id))).isSome :=
          List.find?_isSome.2 ⟨acc, haccmem, by simp⟩
        obtain ⟨b, hb⟩ := Option.isSome_iff_exists.1 hsome
        have hbmem := List.mem_of_find?_eq_some hb
        have hbid : b.id = acc.id := by simpa using List.find?_some hb
        have hba : b = acc := List.inj_on_of_nodup_map hnodup hbmem haccmem hbid
        rw [hba] at hb
        exact hb

/-- C8 witness: on the seeded accounts, requesting ids [2, 1, 2] empties to a
strictly id-sorted result containing Alice, and the empty request returns []. -/
theorem claim8_witness :
    lock_accounts_for_update db0 [] = [] ∧
    List.Sorted (· < ·) ((lock_accounts_for_update db0 [2, 1, 2]).map (fun acc => acc.id)) ∧
    aliceAccount ∈ lock_accounts_for_update db0 [2, 1, 2] :=
  ⟨(claim8_lock_accounts_sorted db0 []).1,
   (claim8_lock_accounts_sorted db0 [2, 1, 2]).2.1,
   (claim8_lock_accounts_sorted db0 [2, 1, 2]).2.2.2.2 (by decide) aliceAccount (by decide)
     (by decide)⟩

/-- C9: `top_up` and `bonus` are equivalent on every state and input — same
validation, idempotency behaviour, entry pair and returned (transaction id,
new balance) — the post-states differing only in the created transaction's
kind (`TOP_UP` vs `BONUS`). -/
theorem claim9_top_up_bonus_equiv (db : DB) (u a : Nat) (amt : Int) (key : Option String) :
    (top_up db u a amt key).2 = (bonus db u a amt key).2 ∧
    (top_up db u a amt key).1.accounts = (bonus db u a amt key).1.accounts ∧
    (top_up db u a amt key).1.entries = (bonus db u a amt key).1.entries ∧
    (top_up db u a amt key).1.next_transaction_id
      = (bonus db u a amt key).1.next_transaction_id ∧
    (top_up db u a amt key).1.next_entry_id = (bonus db u a amt key).1.next_entry_id ∧
    (((top_up db u a amt key).1 = db ∧ (bonus db u a amt key).1 = db) ∨
      ∃ n : Nat,
        (top_up db u a amt key).1.transactions =
          db.transactions ++
            [{ id := n, type := TransactionType.TOP_UP, idempotency_key := key }] ∧
        (bonus db u a amt key).1.transactions =
          db.transactions ++
            [{ id := n, type := TransactionType.BONUS, idempotency_key := key }]) := by
  have ht : top_up db u a amt key = run_operation Op.topUpOp db u a amt key := rfl
  have hbo : bonus db u a amt key = run_operation Op.bonusOp db u a amt key := rfl
  rw [ht, hbo, run_operation_eq, run_operation_eq]
  by_cases h1 : amt ≤ 0
  · simp [h1]
  · rw [if_neg h1, if_neg h1]
    cases hl : lookup_existing db key with
    | some existing => simp
    | none =>
      cases hs : get_system_by_name db SYSTEM_TREASURY_NAME with
      | none => simp
      | some sys =>
        have hf1 : ¬ (Op.topUpOp = Op.spendOp ∧ get_balance db u a < amt) := by simp
        have hf2 : ¬ (Op.bonusOp = Op.spendOp ∧ get_balance db u a < amt) := by simp
        simp only [if_neg hf1, if_neg hf2]
        by_cases hk : key_conflict db key
        · simp [hk]
        · simp only [hk, Bool.false_eq_true, if_false]
          refine ⟨?_, rfl, rfl, rfl, rfl,
            Or.inr ⟨db.next_transaction_id, ?_, ?_⟩⟩
          · simp [write_state, get_balance, op_entry_pair]
          · simp [write_state, op_transaction_type]
          · simp [write_state, op_transaction_type]

/-- C10 counterexample: the claim "two calls with the empty-string key each
create a new Transaction" is false — on the fresh seeded state, the first
top-up with key `""` creates one transaction (storing the empty key), and
the second identical call creates nothing: it fails the idempotency-key
uniqueness constraint and leaves the state unchanged. -/
theorem claim10_counterexample :
    dbEmptyKey.transactions.length = 1 ∧
    top_up dbEmptyKey 2 1 100 (some "") =
      (dbEmptyKey, Except.error WalletError.storeFailure) ∧
    (top_up dbEmptyKey 2 1 100 (some "")).1.transactions.length = 1 := by
  decide

/-- C10 (amended): an empty-string idempotency key is falsy, so the replay
lookup is skipped; a first call (no stored transaction with key `""`)
therefore creates a new transaction, but a second call does not replay the
first: it attempts a fresh insert and fails the uniqueness constraint on
`idempotency_key`, creating no second transaction and leaving the state
unchanged. -/
theorem claim10_empty_key_skips_lookup (op : Op) (db : DB) (u a : Nat) (amt : Int)
    (sys : Account)
    (hamt : 0 < amt)
    (hsys : get_system_by_name db SYSTEM_TREASURY_NAME = some sys)
    (hbal : amt ≤ get_balance db u a) :
    lookup_existing db (some "") = none ∧
    (has_idempotency_key db "" = false →
      ∃ (db2 : DB) (txid : Nat) (bal : Int),
        run_operation op db u a amt (some "") = (db2, Except.ok (txid, bal)) ∧
        db2.transactions.length = db.transactions.length + 1) ∧
    (has_idempotency_key db "" = true →
      run_operation op db u a amt (some "") = (db, Except.error WalletError.storeFailure)) := by
  have hlook : lookup_existing db (some "") = none := by simp [lookup_existing]
  refine ⟨hlook, ?_, ?_⟩
  · intro hfree
    rw [run_operation_eq, if_neg (not_le.mpr hamt)]
    simp only [hlook, hsys]
    rw [if_neg (by rintro ⟨_, hlt⟩; omega)]
    have hkc : key_conflict db (some "") = false := hfree
    simp only [hkc, Bool.false_eq_true, if_false]
    exact ⟨_, _, _, rfl, by simp [write_state]⟩
  · intro hkey
    rw [run_operation_eq, if_neg (not_le.mpr hamt)]
    simp only [hlook, hsys]
    rw [if_neg (by rintro ⟨_, hlt⟩; omega)]
    have hkc : key_conflict db (some "") = true := hkey
    simp [hkc]

/-- C10 witness: on the state already holding a transaction with key `""`,
a further top-up with the empty-string key fails the uniqueness constraint
and writes nothing. -/
theorem claim10_witness :
    run_operation Op.topUpOp dbEmptyKey 2 1 100 (some "") =
      (dbEmptyKey, Except.error WalletError.storeFailure) :=
  (claim10_empty_key_skips_lookup Op.topUpOp dbEmptyKey 2 1 100 treasuryAccount
    (by decide) (by decide) (by decide)).2.2 (by decide)

end Wallet
